import Mathlib

/-!
Shallow embedding of `src/Prolog/timetable_py.py` (class `TimetableScheduler`),
restricted to mock mode (`prolog_available = False`), which is the only mode
whose generation logic is present in the repository.  Python dicts are
association lists (`List (String × _)`); dict indexing that can raise
`KeyError` is `Option`-valued; methods that mutate `self` are state-passing
functions on `SchedulerState`.
-/

/-- `Course` dataclass (timetable_py.py lines 25-33). -/
structure Course where
  id : String
  name : String
  teacher_id : String
  teacher_name : String
  duration : Int
  room_type : String
deriving DecidableEq, Repr

/-- `TimeSlot` dataclass (lines 36-43). -/
structure TimeSlot where
  id : String
  day : String
  start_time : Int
  end_time : Int
  duration : Int
deriving DecidableEq, Repr

/-- `Room` dataclass (lines 46-51). -/
structure Room where
  id : String
  room_type : String
  capacity : Int
deriving DecidableEq, Repr

/-- `ScheduleEntry` dataclass (lines 54-59). -/
structure ScheduleEntry where
  course : Course
  time_slot : TimeSlot
  room : Room
deriving DecidableEq, Repr

/-- The mutable fields of a `TimetableScheduler` instance (lines 69-72):
`courses`, `time_slots`, `rooms` (dicts keyed by id) and `schedule`. -/
structure SchedulerState where
  courses : List (String × Course)
  time_slots : List (String × TimeSlot)
  rooms : List (String × Room)
  schedule : List ScheduleEntry
deriving DecidableEq, Repr

/-- Python dict indexing `d[k]`: `none` models a raised `KeyError`. -/
def dictGet {α : Type} (d : List (String × α)) (k : String) : Option α :=
  (d.find? (fun p => p.1 == k)).map Prod.snd

/-- The five mock courses of `_load_mock_data` (lines 133-139). -/
def cs101 : Course := ⟨"cs101", "Computer Science 101", "t001", "Dr. Smith", 2, "computer_lab"⟩

def cs102 : Course := ⟨"cs102", "Data Structures", "t002", "Prof. Johnson", 2, "computer_lab"⟩

def math101 : Course := ⟨"math101", "Calculus I", "t003", "Dr. Brown", 1, "classroom"⟩

def math102 : Course := ⟨"math102", "Linear Algebra", "t004", "Prof. Davis", 2, "classroom"⟩

def phy101 : Course := ⟨"phy101", "Physics I", "t005", "Dr. Wilson", 2, "physics_lab"⟩

/-- The five mock time slots of `_load_mock_data` (lines 141-147). -/
def slot1 : TimeSlot := ⟨"slot1", "monday", 800, 900, 1⟩

def slot2 : TimeSlot := ⟨"slot2", "monday", 900, 1000, 1⟩

def slot3 : TimeSlot := ⟨"slot3", "monday", 1000, 1200, 2⟩

def slot4 : TimeSlot := ⟨"slot4", "tuesday", 800, 900, 1⟩

def slot5 : TimeSlot := ⟨"slot5", "tuesday", 1000, 1200, 2⟩

/-- The three mock rooms of `_load_mock_data` (lines 149-153). -/
def r001 : Room := ⟨"r001", "computer_lab", 30⟩

def r002 : Room := ⟨"r002", "classroom", 40⟩

def r003 : Room := ⟨"r003", "physics_lab", 20⟩

def mockCourses : List (String × Course) :=
  [("cs101", cs101), ("cs102", cs102), ("math101", math101),
   ("math102", math102), ("phy101", phy101)]

def mockTimeSlots : List (String × TimeSlot) :=
  [("slot1", slot1), ("slot2", slot2), ("slot3", slot3), ("slot4", slot4), ("slot5", slot5)]

def mockRooms : List (String × Room) :=
  [("r001", r001), ("r002", r002), ("r003", r003)]

/-- `_load_mock_data` (lines 131-153): overwrites the three catalog dicts. -/
def load_mock_data (s : SchedulerState) : SchedulerState :=
  { s with courses := mockCourses, time_slots := mockTimeSlots, rooms := mockRooms }

/-- Scheduler state right after `__init__` in mock mode (lines 69-72 then
`_load_data` → `_load_mock_data`). -/
def initState : SchedulerState :=
  load_mock_data ⟨[], [], [], []⟩

/-- The `TimeSlot` built by `_load_from_prolog` (lines 110-116): the duration
field is `(end - start) // 100` (Python floor division, hence `Int.fdiv`). -/
def loadPrologTimeSlot (slot_id day : String) (start_t end_t : Int) : TimeSlot :=
  ⟨slot_id, day, start_t, end_t, Int.fdiv (end_t - start_t) 100⟩

/-- `_generate_mock_schedule` (lines 186-193): replaces `self.schedule` with
three fixed entries looked up from the catalog dicts and returns `True`;
`none` models the `KeyError` raised when a hard-coded id is absent. -/
def generate_mock_schedule (s : SchedulerState) : Option (Bool × SchedulerState) :=
  match dictGet s.courses "cs101", dictGet s.time_slots "slot3", dictGet s.rooms "r001",
        dictGet s.courses "math101", dictGet s.time_slots "slot1", dictGet s.rooms "r002",
        dictGet s.courses "phy101", dictGet s.time_slots "slot5", dictGet s.rooms "r003" with
  | some c1, some t1, some rm1, some c2, some t2, some rm2, some c3, some t3, some rm3 =>
      some (true, { s with schedule := [⟨c1, t1, rm1⟩, ⟨c2, t2, rm2⟩, ⟨c3, t3, rm3⟩] })
  | _, _, _, _, _, _, _, _, _ => none

/-- `generate_schedule` (lines 155-160) in mock mode (`prolog_available`
is `False`): dispatches to `_generate_mock_schedule`. -/
def generate_schedule (s : SchedulerState) : Option (Bool × SchedulerState) :=
  generate_mock_schedule s

/-- The slot key `f"{day}_{start_time}"` of `check_conflicts` (line 263). -/
def slotKey (e : ScheduleEntry) : String :=
  e.time_slot.day ++ "_" ++ Int.repr e.time_slot.start_time

/-- The teacher-conflict message of line 267. -/
def teacherMsg (teacher key : String) : String :=
  "Teacher " ++ teacher ++ " has overlapping classes at " ++ key

/-- The room-conflict message of line 273. -/
def roomMsg (room key : String) : String :=
  "Room " ++ room ++ " has overlapping bookings at " ++ key

/-- The loop body of `check_conflicts` (lines 260-275).  The dict-of-sets
`teacher_slots : teacher → set of slot keys` is represented as the list of
its (teacher, key) pairs, likewise `room_slots`; `slot_key in
teacher_slots.setdefault(teacher, set())` is pair membership. -/
def check_conflicts_aux : List ScheduleEntry → List (String × String) → List (String × String) →
    List String
  | [], _, _ => []
  | e :: rest, teacher_slots, room_slots =>
      let teacher := e.course.teacher_name
      let room := e.room.id
      let key := slotKey e
      (if (teacher, key) ∈ teacher_slots then [teacherMsg teacher key] else []) ++
      (if (room, key) ∈ room_slots then [roomMsg room key] else []) ++
      check_conflicts_aux rest
        (if (teacher, key) ∈ teacher_slots then teacher_slots else (teacher, key) :: teacher_slots)
        (if (room, key) ∈ room_slots then room_slots else (room, key) :: room_slots)

/-- `check_conflicts` (lines 254-277): reads `self.schedule`, writes nothing;
returned alongside the (unchanged) state. -/
def check_conflicts (s : SchedulerState) : List String × SchedulerState :=
  (check_conflicts_aux s.schedule [] [], s)

/-- The three entries `_generate_mock_schedule` installs when the catalog is
the mock catalog (lines 188-192). -/
def mockSchedule : List ScheduleEntry :=
  [⟨cs101, slot3, r001⟩, ⟨math101, slot1, r002⟩, ⟨phy101, slot5, r003⟩]

/-- State after a successful mock generation on `initState`. -/
def mockGenState : SchedulerState :=
  { initState with schedule := mockSchedule }

/-- A course whose duration (99) exceeds every mock slot's duration. -/
def chem999 : Course := ⟨"chem999", "Experimental Chemistry", "t999", "Dr. Long", 99, "chem_lab"⟩

/-- A catalog containing a structurally unschedulable course. -/
def infeasibleState : SchedulerState :=
  { initState with courses := mockCourses ++ [("chem999", chem999)] }

/-- A hand-built schedule listing the same course entry twice. -/
def dupState : SchedulerState :=
  ⟨mockCourses, mockTimeSlots, mockRooms, [⟨cs101, slot3, r001⟩, ⟨cs101, slot3, r001⟩]⟩

/-- The (teacher, slot key) pair recorded for an entry by `check_conflicts`. -/
def tkey (e : ScheduleEntry) : String × String :=
  (e.course.teacher_name, slotKey e)

/-- The (room id, slot key) pair recorded for an entry by `check_conflicts`. -/
def rkey (e : ScheduleEntry) : String × String :=
  (e.room.id, slotKey e)

/-- The (teacher name, day, start time) triple of an entry. -/
def tTriple (e : ScheduleEntry) : String × String × Int :=
  (e.course.teacher_name, e.time_slot.day, e.time_slot.start_time)

/-- The (room id, day, start time) triple of an entry. -/
def rTriple (e : ScheduleEntry) : String × String × Int :=
  (e.room.id, e.time_slot.day, e.time_slot.start_time)

/-- Numeric value of a decimal digit character. -/
def digitVal (c : Char) : Nat :=
  c.toNat - 48

/-! ## Helper lemmas -/

lemma digitChar_eq_star (n : Nat) (h : 16 ≤ n) : Nat.digitChar n = '*' := by
  unfold Nat.digitChar
  repeat rw [if_neg (by omega)]

lemma digitChar_ne_underscore (n : Nat) : Nat.digitChar n ≠ '_' := by
  by_cases h : n < 16
  · interval_cases n <;> decide
  · rw [digitChar_eq_star n (by omega)]
    decide

lemma digitChar_ne_dash (n : Nat) : Nat.digitChar n ≠ '-' := by
  by_cases h : n < 16
  · interval_cases n <;> decide
  · rw [digitChar_eq_star n (by omega)]
    decide

lemma mem_toDigitsCore (f : Nat) :
    ∀ (n : Nat) (l : List Char) (c : Char),
      c ∈ Nat.toDigitsCore 10 f n l → c ∈ l ∨ ∃ m, c = Nat.digitChar m := by
  induction f with
  | zero => intro n l c hc; exact Or.inl hc
  | succ f ih =>
      intro n l c hc
      simp only [Nat.toDigitsCore] at hc
      split at hc
      · rcases List.mem_cons.mp hc with h | h
        · exact Or.inr ⟨n % 10, h⟩
        · exact Or.inl h
      · rcases ih (n / 10) (Nat.digitChar (n % 10) :: l) c hc with h | h
        · rcases List.mem_cons.mp h with h2 | h2
          · exact Or.inr ⟨n % 10, h2⟩
          · exact Or.inl h2
        · exact Or.inr h

lemma natRepr_chars (n : Nat) (c : Char) (hc : c ∈ (Nat.repr n).data) :
    ∃ m, c = Nat.digitChar m := by
  have hc' : c ∈ Nat.toDigitsCore 10 (n + 1) n [] := hc
  rcases mem_toDigitsCore (n + 1) n [] c hc' with h | h
  · simp at h
  · exact h

lemma underscore_not_mem_natRepr (n : Nat) : '_' ∉ (Nat.repr n).data := by
  intro h
  obtain ⟨m, hm⟩ := natRepr_chars n '_' h
  exact digitChar_ne_underscore m hm.symm

lemma underscore_not_mem_intRepr (i : Int) : '_' ∉ (Int.repr i).data := by
  cases i with
  | ofNat m => exact underscore_not_mem_natRepr m
  | negSucc m =>
      intro h
      have hd : (Int.repr (Int.negSucc m)).data = '-' :: (Nat.repr (m + 1)).data := rfl
      rw [hd] at h
      rcases List.mem_cons.mp h with h2 | h2
      · exact absurd h2 (by decide)
      · exact underscore_not_mem_natRepr (m + 1) h2

lemma append_cons_inj_left {α : Type} (u : α) :
    ∀ (p q s t : List α), u ∉ p → u ∉ q → p ++ u :: s = q ++ u :: t → p = q ∧ s = t := by
  intro p
  induction p with
  | nil =>
      intro q s t _ hq h
      cases q with
      | nil => simpa using h
      | cons b q' =>
          simp only [List.nil_append, List.cons_append, List.cons.injEq] at h
          obtain ⟨hb, -⟩ := h
          subst hb
          exact absurd (List.mem_cons_self u q') hq
  | cons a p' ih =>
      intro q s t hp hq h
      cases q with
      | nil =>
          simp only [List.cons_append, List.nil_append, List.cons.injEq] at h
          obtain ⟨hb, -⟩ := h
          subst hb
          exact absurd (List.mem_cons_self a p') hp
      | cons b q' =>
          simp only [List.cons_append, List.cons.injEq] at h
          obtain ⟨hb, h2⟩ := h
          subst hb
          have hp' : u ∉ p' := fun hx => hp (List.mem_cons_of_mem _ hx)
          have hq' : u ∉ q' := fun hx => hq (List.mem_cons_of_mem _ hx)
          obtain ⟨h3, h4⟩ := ih q' s t hp' hq' h2
          exact ⟨by rw [h3], h4⟩

lemma append_cons_inj_right {α : Type} (u : α) (a b c d : List α)
    (hb : u ∉ b) (hd : u ∉ d) (h : a ++ u :: b = c ++ u :: d) : a = c ∧ b = d := by
  have e1 : ∀ (x y : List α), (x ++ u :: y).reverse = y.reverse ++ u :: x.reverse := by
    intro x y
    simp
  have h' := congrArg List.reverse h
  rw [e1, e1] at h'
  obtain ⟨h1, h2⟩ := append_cons_inj_left u b.reverse d.reverse a.reverse c.reverse
    (by simpa using hb) (by simpa using hd) h'
  exact ⟨List.reverse_inj.mp h2, List.reverse_inj.mp h1⟩

lemma decode_toDigitsCore :
    ∀ (f n : Nat) (l : List Char), n < 10 ^ f →
      (Nat.toDigitsCore 10 f n l).foldl (fun acc c => 10 * acc + digitVal c) 0 =
        l.foldl (fun acc c => 10 * acc + digitVal c) n := by
  intro f
  induction f with
  | zero =>
      intro n l hn
      have hn0 : n = 0 := by omega
      subst hn0
      rfl
  | succ f ih =>
      intro n l hn
      have hdig : ∀ d : Nat, d < 10 → digitVal (Nat.digitChar d) = d := by decide
      simp only [Nat.toDigitsCore]
      split
      · rename_i hdiv
        have hmod : n % 10 = n := by omega
        simp only [List.foldl_cons, Nat.mul_zero, Nat.zero_add, hdig (n % 10) (Nat.mod_lt n (by omega))]
        rw [hmod]
      · rename_i hdiv
        have hlt : n / 10 < 10 ^ f := by
          rw [Nat.div_lt_iff_lt_mul (by omega)]
          calc n < 10 ^ (f + 1) := hn
            _ = 10 ^ f * 10 := by rw [Nat.pow_succ]
        rw [ih (n / 10) (Nat.digitChar (n % 10) :: l) hlt]
        simp only [List.foldl_cons, hdig (n % 10) (Nat.mod_lt n (by omega))]
        congr 1
        omega

lemma natRepr_inj (m n : Nat) (h : Nat.repr m = Nat.repr n) : m = n := by
  have hd : Nat.toDigitsCore 10 (m + 1) m [] = Nat.toDigitsCore 10 (n + 1) n [] :=
    congrArg String.data h
  have hm : m < 10 ^ (m + 1) :=
    Nat.lt_trans (Nat.lt_pow_self (by norm_num) m)
      (Nat.pow_lt_pow_right (by norm_num) (Nat.lt_succ_self m))
  have hn : n < 10 ^ (n + 1) :=
    Nat.lt_trans (Nat.lt_pow_self (by norm_num) n)
      (Nat.pow_lt_pow_right (by norm_num) (Nat.lt_succ_self n))
  have h1 := decode_toDigitsCore (m + 1) m [] hm
  have h2 := decode_toDigitsCore (n + 1) n [] hn
  rw [hd] at h1
  rw [h1] at h2
  exact h2

lemma natRepr_string_inj (m n : Nat) (h : (Nat.repr m).data = (Nat.repr n).data) : m = n :=
  natRepr_inj m n (String.ext h)

lemma intRepr_inj (i j : Int) (h : (Int.repr i).data = (Int.repr j).data) : i = j := by
  cases i with
  | ofNat m =>
      have hi : (Int.ofNat m).repr = Nat.repr m := rfl
      cases j with
      | ofNat n =>
          have hj : (Int.ofNat n).repr = Nat.repr n := rfl
          rw [hi, hj] at h
          rw [natRepr_string_inj m n h]
      | negSucc n =>
          exfalso
          have hj : (Int.negSucc n).repr.data = '-' :: (Nat.repr (n + 1)).data := rfl
          rw [hi, hj] at h
          have hdash : '-' ∈ (Nat.repr m).data := by
            rw [h]
            exact List.mem_cons_self _ _
          obtain ⟨d, hd⟩ := natRepr_chars m '-' hdash
          exact digitChar_ne_dash d hd.symm
  | negSucc m =>
      have hi : (Int.negSucc m).repr.data = '-' :: (Nat.repr (m + 1)).data := rfl
      cases j with
      | ofNat n =>
          exfalso
          have hj : (Int.ofNat n).repr = Nat.repr n := rfl
          rw [hi, hj] at h
          have hdash : '-' ∈ (Nat.repr n).data := by
            rw [← h]
            exact List.mem_cons_self _ _
          obtain ⟨d, hd⟩ := natRepr_chars n '-' hdash
          exact digitChar_ne_dash d hd.symm
      | negSucc n =>
          have hj : (Int.negSucc n).repr.data = '-' :: (Nat.repr (n + 1)).data := rfl
          rw [hi, hj] at h
          injection h with h1 h2
          have h3 := natRepr_string_inj (m + 1) (n + 1) h2
          have h4 : m = n := by omega
          rw [h4]

lemma dayKey_inj (d1 d2 : String) (s1 s2 : Int)
    (h : d1 ++ "_" ++ Int.repr s1 = d2 ++ "_" ++ Int.repr s2) : d1 = d2 ∧ s1 = s2 := by
  have hu : ("_" : String).data = ['_'] := rfl
  have hd := congrArg String.data h
  simp only [String.data_append, hu, List.append_assoc, List.singleton_append] at hd
  obtain ⟨h1, h2⟩ := append_cons_inj_right '_' d1.data (Int.repr s1).data d2.data
    (Int.repr s2).data (underscore_not_mem_intRepr s1) (underscore_not_mem_intRepr s2) hd
  exact ⟨String.ext h1, intRepr_inj s1 s2 h2⟩

lemma nodup_acc_cons_iff {β : Type} (k : β) (ks : List β) (acc : List β) (hk : k ∉ acc) :
    (ks.Nodup ∧ ∀ x ∈ ks, x ∉ k :: acc) ↔ ((k :: ks).Nodup ∧ ∀ x ∈ k :: ks, x ∉ acc) := by
  constructor
  · rintro ⟨hnd, hall⟩
    refine ⟨List.nodup_cons.mpr ⟨fun hmem => ?_, hnd⟩, ?_⟩
    · exact (hall k hmem) (List.mem_cons_self k acc)
    · intro x hx
      rcases List.mem_cons.mp hx with rfl | hx'
      · exact hk
      · intro hxacc
        exact (hall x hx') (List.mem_cons_of_mem k hxacc)
  · rintro ⟨hnd, hall⟩
    obtain ⟨hkks, hnd'⟩ := List.nodup_cons.mp hnd
    refine ⟨hnd', ?_⟩
    intro x hx hxk
    rcases List.mem_cons.mp hxk with rfl | hxacc
    · exact hkks hx
    · exact (hall x (List.mem_cons_of_mem k hx)) hxacc

lemma check_conflicts_aux_empty_iff :
    ∀ (l : List ScheduleEntry) (ts rs : List (String × String)),
      check_conflicts_aux l ts rs = [] ↔
        (((l.map tkey).Nodup ∧ ∀ x ∈ l.map tkey, x ∉ ts) ∧
         ((l.map rkey).Nodup ∧ ∀ x ∈ l.map rkey, x ∉ rs)) := by
  intro l
  induction l with
  | nil => intro ts rs; simp [check_conflicts_aux]
  | cons e rest ih =>
      intro ts rs
      simp only [check_conflicts_aux]
      by_cases h1 : (e.course.teacher_name, slotKey e) ∈ ts
      · have h1' : tkey e ∈ ts := h1
        simp [h1, h1', List.append_eq_nil, List.forall_mem_cons]
      · by_cases h2 : (e.room.id, slotKey e) ∈ rs
        · have h2' : rkey e ∈ rs := h2
          simp [h1, h2, h2', List.append_eq_nil, List.forall_mem_cons]
        · have h1' : tkey e ∉ ts := h1
          have h2' : rkey e ∉ rs := h2
          simp only [if_neg h1, if_neg h2, List.nil_append]
          rw [ih ((e.course.teacher_name, slotKey e) :: ts) ((e.room.id, slotKey e) :: rs)]
          have et : ((e.course.teacher_name, slotKey e) : String × String) = tkey e := rfl
          have er : ((e.room.id, slotKey e) : String × String) = rkey e := rfl
          rw [et, er, List.map_cons, List.map_cons]
          rw [nodup_acc_cons_iff (tkey e) (rest.map tkey) ts h1',
            nodup_acc_cons_iff (rkey e) (rest.map rkey) rs h2']

/-! ## Claim theorems -/

lemma generate_schedule_mock (st : SchedulerState)
    (hc : st.courses = mockCourses) (ht : st.time_slots = mockTimeSlots)
    (hr : st.rooms = mockRooms) :
    generate_schedule st = some (true, { st with schedule := mockSchedule }) := by
  obtain ⟨cs, ts, rs, sched⟩ := st
  simp only at hc ht hr
  subst hc ht hr
  rfl

lemma check_conflicts_aux_length :
    ∀ (l : List ScheduleEntry) (ts rs : List (String × String)),
      (check_conflicts_aux l ts rs).length ≤ 2 * l.length := by
  intro l
  induction l with
  | nil => intro ts rs; simp [check_conflicts_aux]
  | cons e rest ih =>
      intro ts rs
      simp only [check_conflicts_aux, List.length_append, List.length_cons]
      have hA : (if (e.course.teacher_name, slotKey e) ∈ ts
          then [teacherMsg e.course.teacher_name (slotKey e)]
          else ([] : List String)).length ≤ 1 := by
        split <;> simp
      have hB : (if (e.room.id, slotKey e) ∈ rs
          then [roomMsg e.room.id (slotKey e)]
          else ([] : List String)).length ≤ 1 := by
        split <;> simp
      have hC := ih
        (if (e.course.teacher_name, slotKey e) ∈ ts then ts
          else (e.course.teacher_name, slotKey e) :: ts)
        (if (e.room.id, slotKey e) ∈ rs then rs
          else (e.room.id, slotKey e) :: rs)
      omega

lemma check_conflicts_aux_msgs :
    ∀ (l : List ScheduleEntry) (ts rs : List (String × String)) (m : String),
      m ∈ check_conflicts_aux l ts rs →
      (∃ t k, m = teacherMsg t k) ∨ (∃ r k, m = roomMsg r k) := by
  intro l
  induction l with
  | nil => intro ts rs m hm; simp [check_conflicts_aux] at hm
  | cons e rest ih =>
      intro ts rs m hm
      simp only [check_conflicts_aux, List.mem_append] at hm
      rcases hm with (hm | hm) | hm
      · split at hm
        · simp only [List.mem_singleton] at hm
          exact Or.inl ⟨_, _, hm⟩
        · simp at hm
      · split at hm
        · simp only [List.mem_singleton] at hm
          exact Or.inr ⟨_, _, hm⟩
        · simp at hm
      · exact ih _ _ m hm

/-! ## Claim theorems -/

/-- C1 counterexample: on the mock catalog, `generate_schedule` succeeds
(returns `True`), yet the catalog course `cs102` appears zero times in the
resulting schedule, so not every catalog course appears exactly once. -/
theorem generate_succeeds_without_cs102 :
    (generate_schedule initState).map Prod.fst = some true ∧
    dictGet initState.courses "cs102" = some cs102 ∧
    (generate_schedule initState).map
      (fun p => p.2.schedule.countP (fun e => e.course.id == "cs102")) = some 0 := by
  decide

/-- C1 (amended): if `generate_schedule` succeeds on the mock catalog, the
resulting schedule lists exactly the three courses cs101, math101, phy101
(each at most once per catalog course), and the catalog courses cs102 and
math102 do not appear at all, so the schedule has 3 entries, not 5. -/
theorem generate_mock_schedule_ids (st : SchedulerState)
    (hc : st.courses = mockCourses) (ht : st.time_slots = mockTimeSlots)
    (hr : st.rooms = mockRooms) :
    ∃ st', generate_schedule st = some (true, st') ∧
      st'.schedule.map (fun e => e.course.id) = ["cs101", "math101", "phy101"] ∧
      (∀ cid ∈ mockCourses.map Prod.fst,
        st'.schedule.countP (fun e => e.course.id == cid) ≤ 1) ∧
      st'.schedule.countP (fun e => e.course.id == "cs102") = 0 ∧
      st'.schedule.countP (fun e => e.course.id == "math102") = 0 := by
  obtain ⟨cs, ts, rs, sched⟩ := st
  simp only at hc ht hr
  subst hc ht hr
  exact ⟨⟨mockCourses, mockTimeSlots, mockRooms, mockSchedule⟩, rfl,
    by decide, by decide, by decide, by decide⟩

/-- Witness for C1 (amended) at the concrete mock-mode initial state. -/
theorem generate_mock_schedule_ids_w :
    ∃ st', generate_schedule initState = some (true, st') ∧
      st'.schedule.map (fun e => e.course.id) = ["cs101", "math101", "phy101"] ∧
      (∀ cid ∈ mockCourses.map Prod.fst,
        st'.schedule.countP (fun e => e.course.id == cid) ≤ 1) ∧
      st'.schedule.countP (fun e => e.course.id == "cs102") = 0 ∧
      st'.schedule.countP (fun e => e.course.id == "math102") = 0 :=
  generate_mock_schedule_ids initState rfl rfl rfl

/-- C2: every schedule produced by a successful `generate_schedule` call in
mock mode (where the catalog is the mock catalog) passes `check_conflicts`
with an empty conflict list. -/
theorem generate_then_check_conflicts_empty (st st' : SchedulerState) (b : Bool)
    (hc : st.courses = mockCourses) (ht : st.time_slots = mockTimeSlots)
    (hr : st.rooms = mockRooms)
    (hgen : generate_schedule st = some (b, st')) :
    (check_conflicts st').1 = [] := by
  obtain ⟨cs, ts, rs, sched⟩ := st
  simp only at hc ht hr
  subst hc ht hr
  rw [generate_schedule_mock _ rfl rfl rfl] at hgen
  simp only [Option.some.injEq, Prod.mk.injEq] at hgen
  obtain ⟨-, hst⟩ := hgen
  subst hst
  exact (by decide :
    (check_conflicts (⟨mockCourses, mockTimeSlots, mockRooms, mockSchedule⟩ : SchedulerState)).1
      = [])

/-- Witness for C2 at the concrete mock-mode initial state. -/
theorem generate_then_check_conflicts_empty_w :
    (check_conflicts mockGenState).1 = [] :=
  generate_then_check_conflicts_empty initState mockGenState true rfl rfl rfl rfl

/-- C3 counterexample: the single-entry schedule placing cs101 (duration 2,
needs a computer_lab) in slot1 (duration 1) in room r002 (a classroom)
breaches both the duration rule and the room-type rule, yet
`check_conflicts` returns the empty list instead of naming a violation. -/
theorem check_conflicts_misses_duration_and_type :
    slot1.duration < cs101.duration ∧
    r002.room_type ≠ cs101.room_type ∧
    (check_conflicts ⟨mockCourses, mockTimeSlots, mockRooms, [⟨cs101, slot1, r002⟩]⟩).1 = [] := by
  decide

/-- C3 (amended): `check_conflicts` detects only teacher double-bookings and
room double-bookings (keyed by day and start time): every message it returns
is a teacher-overlap or room-overlap message, so duration and room-type
breaches are never reported. -/
theorem check_conflicts_only_double_bookings (st : SchedulerState) (m : String)
    (hm : m ∈ (check_conflicts st).1) :
    (∃ t k, m = teacherMsg t k) ∨ (∃ r k, m = roomMsg r k) :=
  check_conflicts_aux_msgs st.schedule [] [] m hm

/-- Witness for C3 (amended) on a schedule with a real double booking. -/
theorem check_conflicts_only_double_bookings_w :
    (∃ t k, teacherMsg "Dr. Smith" "monday_1000" = teacherMsg t k) ∨
    (∃ r k, teacherMsg "Dr. Smith" "monday_1000" = roomMsg r k) :=
  check_conflicts_only_double_bookings dupState (teacherMsg "Dr. Smith" "monday_1000")
    (by decide)

/-- C4: `check_conflicts` is total on arbitrary schedules: for every state
(any catalog and any finite schedule, engine-produced or not) it returns a
possibly-empty list — of at most two messages per entry — and the state
itself, never an error. -/
theorem check_conflicts_never_fails (cs : List (String × Course))
    (ts : List (String × TimeSlot)) (rs : List (String × Room))
    (sched : List ScheduleEntry) :
    ∃ l : List String, check_conflicts ⟨cs, ts, rs, sched⟩ = (l, ⟨cs, ts, rs, sched⟩) ∧
      l.length ≤ 2 * sched.length :=
  ⟨check_conflicts_aux sched [] [], rfl, check_conflicts_aux_length sched [] []⟩

/-- C5: `check_conflicts` is idempotent and read-only: it leaves the state
(schedule and catalog) unchanged, and a second call on the resulting state
returns the same conflict list. -/
theorem check_conflicts_idempotent (st : SchedulerState) :
    (check_conflicts st).2 = st ∧
    (check_conflicts ((check_conflicts st).2)).1 = (check_conflicts st).1 ∧
    (check_conflicts ((check_conflicts st).2)).2 = st :=
  ⟨rfl, rfl, rfl⟩

/-- C6 counterexample: `infeasibleState` contains the course chem999 whose
duration 99 exceeds every slot's duration, yet `generate_schedule` still
returns `True` — there is no `CatalogError` and no pre-search failure. -/
theorem generate_succeeds_despite_infeasible_course :
    (∀ p ∈ infeasibleState.time_slots, p.2.duration < chem999.duration) ∧
    ("chem999", chem999) ∈ infeasibleState.courses ∧
    (generate_schedule infeasibleState).map Prod.fst = some true := by
  decide

/-- C6 (amended): `generate_schedule` performs no structural-feasibility
check: even when some catalog course's duration exceeds every slot's
duration, mock generation still succeeds whenever its three hard-coded
lookups succeed. -/
theorem generate_mock_no_feasibility_check (st : SchedulerState)
    (c1 : Course) (t1 : TimeSlot) (rm1 : Room)
    (c2 : Course) (t2 : TimeSlot) (rm2 : Room)
    (c3 : Course) (t3 : TimeSlot) (rm3 : Room)
    (_hinf : ∃ p ∈ st.courses, ∀ q ∈ st.time_slots, q.2.duration < p.2.duration)
    (h1 : dictGet st.courses "cs101" = some c1)
    (h2 : dictGet st.time_slots "slot3" = some t1)
    (h3 : dictGet st.rooms "r001" = some rm1)
    (h4 : dictGet st.courses "math101" = some c2)
    (h5 : dictGet st.time_slots "slot1" = some t2)
    (h6 : dictGet st.rooms "r002" = some rm2)
    (h7 : dictGet st.courses "phy101" = some c3)
    (h8 : dictGet st.time_slots "slot5" = some t3)
    (h9 : dictGet st.rooms "r003" = some rm3) :
    (generate_schedule st).map Prod.fst = some true := by
  simp [generate_schedule, generate_mock_schedule, h1, h2, h3, h4, h5, h6, h7, h8, h9]

/-- Witness for C6 (amended) at the infeasible catalog. -/
theorem generate_mock_no_feasibility_check_w :
    (generate_schedule infeasibleState).map Prod.fst = some true :=
  generate_mock_no_feasibility_check infeasibleState cs101 slot3 r001 math101 slot1 r002
    phy101 slot5 r003 ⟨("chem999", chem999), by decide, by decide⟩
    rfl rfl rfl rfl rfl rfl rfl rfl rfl

/-- C7: every time slot of the loaded catalog has
`duration = (end_time - start_time) // 100`: it holds for each of the five
mock slots, and by construction for every slot built by
`_load_from_prolog`. -/
theorem slot_duration_derived :
    (∀ p ∈ initState.time_slots,
      p.2.duration = Int.fdiv (p.2.end_time - p.2.start_time) 100) ∧
    (∀ (sid day : String) (s e : Int),
      (loadPrologTimeSlot sid day s e).duration =
        Int.fdiv ((loadPrologTimeSlot sid day s e).end_time -
          (loadPrologTimeSlot sid day s e).start_time) 100) := by
  refine ⟨by decide, fun sid day s e => rfl⟩

/-- Witness for C7 at the concrete mock slot slot1. -/
theorem slot_duration_derived_w :
    slot1.duration = Int.fdiv (slot1.end_time - slot1.start_time) 100 :=
  slot_duration_derived.1 ("slot1", slot1) (by decide)

/-- C8: neither operation mutates the catalog: any successful
`generate_schedule` call preserves the `courses`, `time_slots` and `rooms`
collections, and `check_conflicts` returns the state unchanged. -/
theorem catalog_not_mutated :
    (∀ (st st' : SchedulerState) (b : Bool), generate_schedule st = some (b, st') →
      st'.courses = st.courses ∧ st'.time_slots = st.time_slots ∧ st'.rooms = st.rooms) ∧
    (∀ st : SchedulerState, (check_conflicts st).2 = st) := by
  constructor
  · intro st st' b h
    unfold generate_schedule generate_mock_schedule at h
    split at h
    · simp only [Option.some.injEq, Prod.mk.injEq] at h
      obtain ⟨-, hst⟩ := h
      subst hst
      exact ⟨rfl, rfl, rfl⟩
    · exact Option.noConfusion h
  · intro st; rfl

/-- Witness for C8 at the concrete mock-mode initial state. -/
theorem catalog_not_mutated_w :
    (mockGenState.courses = initState.courses ∧
      mockGenState.time_slots = initState.time_slots ∧
      mockGenState.rooms = initState.rooms) ∧
    (check_conflicts initState).2 = initState :=
  ⟨catalog_not_mutated.1 initState mockGenState true rfl, catalog_not_mutated.2 initState⟩

/-- C9: `check_conflicts` returns the empty list exactly when the
(teacher name, day, start time) triples of the schedule entries are pairwise
distinct and the (room id, day, start time) triples are pairwise distinct:
overlap is judged solely by equal day and equal start time, so entries in
partially overlapping slots with different start times are never reported. -/
theorem check_conflicts_empty_iff (st : SchedulerState) :
    (check_conflicts st).1 = [] ↔
      (st.schedule.map tTriple).Nodup ∧ (st.schedule.map rTriple).Nodup := by
  have base := check_conflicts_aux_empty_iff st.schedule [] []
  simp only [List.not_mem_nil, not_false_eq_true, implies_true, and_true] at base
  rw [show (check_conflicts st).1 = check_conflicts_aux st.schedule [] [] from rfl, base]
  have hg : Function.Injective
      (fun p : String × String × Int => (p.1, p.2.1 ++ "_" ++ Int.repr p.2.2)) := by
    rintro ⟨t1, d1, s1⟩ ⟨t2, d2, s2⟩ hp
    simp only [Prod.mk.injEq] at hp
    obtain ⟨h1, h2⟩ := hp
    obtain ⟨hd, hs⟩ := dayKey_inj d1 d2 s1 s2 h2
    simp [h1, hd, hs]
  have ht : st.schedule.map tkey = (st.schedule.map tTriple).map
      (fun p : String × String × Int => (p.1, p.2.1 ++ "_" ++ Int.repr p.2.2)) := by
    rw [List.map_map]
    exact List.map_congr_left fun a _ => rfl
  have hrk : st.schedule.map rkey = (st.schedule.map rTriple).map
      (fun p : String × String × Int => (p.1, p.2.1 ++ "_" ++ Int.repr p.2.2)) := by
    rw [List.map_map]
    exact List.map_congr_left fun a _ => rfl
  rw [ht, hrk, List.nodup_map_iff hg, List.nodup_map_iff hg]

/-- C10: mock-mode generation is deterministic: on the mock-mode initial
state `generate_schedule` returns `True` and installs the fixed three-entry
schedule, and a second call on the resulting state returns `True` with the
identical schedule. -/
theorem generate_mock_deterministic :
    generate_schedule initState = some (true, mockGenState) ∧
    generate_schedule mockGenState = some (true, mockGenState) := by
  exact ⟨rfl, rfl⟩
